import Mathlib

/-!
Shallow embedding of the EchoTrace hub/node coordination subsystem
(`src/hub` and `src/pi_nodes` of watrall/echotrace-whispering-objects),
together with theorems settling the frozen specification claims.

Conventions of the embedding:
* Python `int` is `Int`, Python `float` is `Rat` (no floating-point claim
  depends on rounding; every literal involved is exactly representable),
  wall-clock times are `Rat` seconds.
* Dynamically-typed JSON/YAML scalar values are the inductive `PyValue`;
  `int(...)` / `float(...)` coercions that can raise are `Option`-valued
  (`PyValue.toInt?` / `PyValue.toFloat?`), and Python truthiness is
  `PyValue.toBool`.  Opaque strings are modelled as never numerically
  coercible; no numeric string literal is used anywhere in this
  development, so this does not affect any statement below.
* Python dicts with string keys are association lists (`PyDict`), with
  `dget` mirroring `dict.get(key, default)` and `dfind?` mirroring
  `key in dict` / `dict[key]`.
* Fallible Python code (statements that can raise) returns `Except`.
-/

namespace EchoTrace

/-- A dynamically-typed Python scalar value (JSON/YAML leaf). -/
inductive PyValue where
  | int (n : Int)
  | float (q : Rat)
  | bool (b : Bool)
  | str (s : String)
  | none
  deriving DecidableEq, Repr

/-- Truncation toward zero, the behaviour of Python `int(float)`. -/
def ratTrunc (q : Rat) : Int :=
  if 0 ≤ q then ⌊q⌋ else ⌈q⌉

/-- Python `int(value)`: `Option.none` models the `TypeError`/`ValueError`
raise.  Strings stand for non-numeric text (numeric string literals are not
used in this development). -/
def PyValue.toInt? : PyValue → Option Int
  | .int n => some n
  | .float q => some (ratTrunc q)
  | .bool b => some (if b then 1 else 0)
  | .str _ => Option.none
  | .none => Option.none

/-- Python `float(value)`, with the same conventions as `PyValue.toInt?`. -/
def PyValue.toFloat? : PyValue → Option Rat
  | .int n => some (n : Rat)
  | .float q => some q
  | .bool b => some (if b then 1 else 0)
  | .str _ => Option.none
  | .none => Option.none

/-- Python truthiness, `bool(value)`. -/
def PyValue.toBool : PyValue → Bool
  | .int n => n ≠ 0
  | .float q => q ≠ 0
  | .bool b => b
  | .str s => s ≠ ""
  | .none => false

/-- A Python dict with string keys, as an association list (first binding
wins, matching insertion-ordered dicts with distinct keys). -/
abbrev PyDict := List (String × PyValue)

/-- `dict[key]` lookup, `Option`-valued (`key in dict` is `isSome`). -/
def dfind? (d : PyDict) (k : String) : Option PyValue :=
  (d.find? (fun p => p.1 == k)).map (·.2)

/-- Python `dict.get(key, default)`. -/
def dget (d : PyDict) (k : String) (default : PyValue) : PyValue :=
  (dfind? d k).getD default

/-! ## `src/hub/narrative_state.py` — `NarrativeState`

`triggered_whispers` (a Python `set`) is modelled as a duplicate-free list;
`register_trigger` preserves freedom from duplicates because it inserts only
after a membership test, exactly as the source consults the set. -/

/-- The `NarrativeState` dataclass of `src/hub/narrative_state.py`. -/
structure NarrativeState where
  required_fragments : Int
  triggered_whispers : List String
  unlocked : Bool
  deriving DecidableEq, Repr

namespace NarrativeState

/-- The dataclass constructor with its field defaults. -/
def init (required : Int) : NarrativeState :=
  { required_fragments := required, triggered_whispers := [], unlocked := false }

/-- `NarrativeState.register_trigger` (lines 17–28): returns the updated
state and the boolean result. -/
def register_trigger (s : NarrativeState) (node_id : String) : NarrativeState × Bool :=
  if node_id ∈ s.triggered_whispers then
    (s, false)
  else
    let triggered := node_id :: s.triggered_whispers
    let unlocked :=
      if ¬s.unlocked ∧ s.required_fragments ≤ (triggered.length : Int) then true
      else s.unlocked
    ({ s with triggered_whispers := triggered, unlocked := unlocked }, true)

/-- `NarrativeState.reset` (lines 30–33). -/
def reset (s : NarrativeState) : NarrativeState :=
  { s with triggered_whispers := [], unlocked := false }

/-- `NarrativeState.triggered_list` (lines 42–44): sorted view. -/
def triggered_list (s : NarrativeState) : List String :=
  s.triggered_whispers.mergeSort (fun a b => a ≤ b)

/-- Run a sequence of `register_trigger` calls, collecting the returned
booleans in order. -/
def runTriggers (s : NarrativeState) : List String → NarrativeState × List Bool
  | [] => (s, [])
  | n :: ns =>
    let r := register_trigger s n
    let rest := runTriggers r.1 ns
    (rest.1, r.2 :: rest.2)

/-- `unlocked` always equals the unlock predicate over the current set
(this is the state invariant maintained by `register_trigger`; it holds for
a fresh state whenever `required_fragments ≥ 1`). -/
def UnlockInv (s : NarrativeState) : Prop :=
  s.unlocked = decide (s.required_fragments ≤ (s.triggered_whispers.length : Int))

theorem register_trigger_mem (s : NarrativeState) (n x : String) :
    x ∈ (s.register_trigger n).1.triggered_whispers ↔
      x = n ∨ x ∈ s.triggered_whispers := by
  unfold register_trigger
  split_ifs with h
  · constructor
    · exact fun hx => Or.inr hx
    · rintro (rfl | hx)
      · exact h
      · exact hx
  · simp [List.mem_cons]

theorem register_trigger_required (s : NarrativeState) (n : String) :
    (s.register_trigger n).1.required_fragments = s.required_fragments := by
  unfold register_trigger
  split_ifs <;> rfl

theorem register_trigger_nodup (s : NarrativeState) (n : String)
    (h : s.triggered_whispers.Nodup) :
    (s.register_trigger n).1.triggered_whispers.Nodup := by
  unfold register_trigger
  split_ifs with hm
  · exact h
  · exact List.nodup_cons.mpr ⟨hm, h⟩

theorem register_trigger_snd (s : NarrativeState) (n : String) :
    (s.register_trigger n).2 = decide (n ∉ s.triggered_whispers) := by
  unfold register_trigger
  split_ifs with h <;> simp [h]

theorem register_trigger_unlockInv (s : NarrativeState) (n : String)
    (h : UnlockInv s) : UnlockInv (s.register_trigger n).1 := by
  unfold register_trigger UnlockInv at *
  split_ifs with hm
  · exact h
  · rw [h]
    by_cases hle : s.required_fragments ≤ (s.triggered_whispers.length : Int)
    · have hle1 : s.required_fragments ≤ (((n :: s.triggered_whispers).length : Nat) : Int) := by
        simp only [List.length_cons]
        push_cast
        omega
      simp [hle, hle1]
      push_cast at hle ⊢
      omega
    · by_cases hle1 : s.required_fragments ≤ (((n :: s.triggered_whispers).length : Nat) : Int)
      · simp [hle, hle1]
      · simp [hle, hle1]

theorem runTriggers_fst_mem (ns : List String) :
    ∀ (s : NarrativeState) (x : String),
      x ∈ (runTriggers s ns).1.triggered_whispers ↔
        x ∈ s.triggered_whispers ∨ x ∈ ns := by
  induction ns with
  | nil => intro s x; simp [runTriggers]
  | cons n ns ih =>
    intro s x
    simp only [runTriggers, ih, register_trigger_mem, List.mem_cons]
    tauto

theorem runTriggers_fst_required (ns : List String) :
    ∀ s : NarrativeState,
      (runTriggers s ns).1.required_fragments = s.required_fragments := by
  induction ns with
  | nil => intro s; rfl
  | cons n ns ih => intro s; simp [runTriggers, ih, register_trigger_required]

theorem runTriggers_fst_nodup (ns : List String) :
    ∀ s : NarrativeState, s.triggered_whispers.Nodup →
      (runTriggers s ns).1.triggered_whispers.Nodup := by
  induction ns with
  | nil => intro s h; exact h
  | cons n ns ih => intro s h; exact ih _ (register_trigger_nodup s n h)

theorem runTriggers_fst_unlockInv (ns : List String) :
    ∀ s : NarrativeState, UnlockInv s → UnlockInv (runTriggers s ns).1 := by
  induction ns with
  | nil => intro s h; exact h
  | cons n ns ih => intro s h; exact ih _ (register_trigger_unlockInv s n h)

theorem runTriggers_fst_toFinset (ns : List String) :
    ∀ s : NarrativeState,
      (runTriggers s ns).1.triggered_whispers.toFinset =
        s.triggered_whispers.toFinset ∪ ns.toFinset := by
  intro s
  ext x
  simp [runTriggers_fst_mem]

theorem runTriggers_snd_get? (ns : List String) :
    ∀ (s : NarrativeState) (k : Nat) (hk : k < ns.length),
      (runTriggers s ns).2.get? k =
        some (decide (ns.get ⟨k, hk⟩ ∉ s.triggered_whispers ∧
          ns.get ⟨k, hk⟩ ∉ ns.take k)) := by
  induction ns with
  | nil => intro s k hk; exact absurd hk (by simp)
  | cons n ns ih =>
    intro s k hk
    match k with
    | 0 =>
      simp [runTriggers, register_trigger_snd]
    | Nat.succ k =>
      have hk' : k < ns.length := Nat.lt_of_succ_lt_succ hk
      simp only [runTriggers, List.get?_cons_succ]
      rw [ih (register_trigger s n).1 k hk']
      congr 1
      apply decide_eq_decide.mpr
      constructor
      · rintro ⟨h1, h2⟩
        refine ⟨fun hx => h1 ?_, ?_⟩
        · exact (register_trigger_mem s n _).mpr (Or.inr hx)
        · simp only [List.take_succ_cons, List.mem_cons]
          rintro (h | h)
          · exact h1 ((register_trigger_mem s n _).mpr (Or.inl h))
          · exact h2 h
      · rintro ⟨h1, h2⟩
        simp only [List.take_succ_cons, List.mem_cons] at h2
        push_neg at h2
        refine ⟨fun hx => ?_, h2.2⟩
        rcases (register_trigger_mem s n _).mp hx with h | h
        · exact h2.1 h
        · exact h1 h

/-- The fresh state of `required ≥ 1` satisfies the unlock invariant. -/
theorem init_unlockInv (req : Int) (h : 1 ≤ req) : UnlockInv (init req) := by
  unfold UnlockInv init
  simp
  omega

end NarrativeState

/-- C1: for a `NarrativeState` with `required ≥ 1` and any `register_trigger`
sequence (no reset): the triggered set is exactly the distinct node ids seen,
each call returns true iff its node id was not previously present, and
`unlocked` holds after a prefix exactly when the prefix's distinct-id count
has reached `required` — hence it turns true exactly once, on the call where
that count first reaches `required`, and stays true afterwards. -/
theorem C1_register_trigger_trace (req : Int) (hreq : 1 ≤ req) (ns : List String) :
    (∀ x, x ∈ (NarrativeState.runTriggers (.init req) ns).1.triggered_whispers ↔ x ∈ ns)
    ∧ (NarrativeState.runTriggers (.init req) ns).1.triggered_whispers.length
        = ns.dedup.length
    ∧ (∀ (k : Nat) (hk : k < ns.length),
        (NarrativeState.runTriggers (.init req) ns).2.get? k =
          some (decide (ns.get ⟨k, hk⟩ ∉ ns.take k)))
    ∧ (∀ k : Nat,
        ((NarrativeState.runTriggers (.init req) (ns.take k)).1.unlocked = true ↔
          req ≤ ((ns.take k).dedup.length : Int)))
    ∧ (∀ k m : Nat, k ≤ m →
        (NarrativeState.runTriggers (.init req) (ns.take k)).1.unlocked = true →
        (NarrativeState.runTriggers (.init req) (ns.take m)).1.unlocked = true) := by
  have hmem : ∀ ms : List String, ∀ x,
      x ∈ (NarrativeState.runTriggers (.init req) ms).1.triggered_whispers ↔ x ∈ ms := by
    intro ms x
    rw [NarrativeState.runTriggers_fst_mem]
    simp [NarrativeState.init]
  have hlen : ∀ ms : List String,
      (NarrativeState.runTriggers (.init req) ms).1.triggered_whispers.length
        = ms.dedup.length := by
    intro ms
    have hnd : (NarrativeState.runTriggers (.init req) ms).1.triggered_whispers.Nodup :=
      NarrativeState.runTriggers_fst_nodup ms _ (by simp [NarrativeState.init])
    have hfin : (NarrativeState.runTriggers (.init req) ms).1.triggered_whispers.toFinset
        = ms.toFinset := by
      rw [NarrativeState.runTriggers_fst_toFinset]
      simp [NarrativeState.init]
    calc (NarrativeState.runTriggers (.init req) ms).1.triggered_whispers.length
        = (NarrativeState.runTriggers (.init req) ms).1.triggered_whispers.toFinset.card :=
          (List.toFinset_card_of_nodup hnd).symm
      _ = ms.toFinset.card := by rw [hfin]
      _ = ms.dedup.length := List.card_toFinset ms
  have hunl : ∀ ms : List String,
      ((NarrativeState.runTriggers (.init req) ms).1.unlocked = true ↔
        req ≤ (ms.dedup.length : Int)) := by
    intro ms
    have hinv := NarrativeState.runTriggers_fst_unlockInv ms _
      (NarrativeState.init_unlockInv req hreq)
    unfold NarrativeState.UnlockInv at hinv
    rw [hinv, NarrativeState.runTriggers_fst_required, hlen ms]
    simp [NarrativeState.init]
  refine ⟨hmem ns, hlen ns, ?_, fun k => hunl (ns.take k), ?_⟩
  · intro k hk
    rw [NarrativeState.runTriggers_snd_get? ns _ k hk]
    congr 1
    apply decide_eq_decide.mpr
    simp [NarrativeState.init]
  · intro k m hkm hk
    rw [hunl (ns.take m)]
    rw [hunl (ns.take k)] at hk
    refine le_trans hk ?_
    have hsub : (ns.take k).toFinset ⊆ (ns.take m).toFinset := by
      intro x hx
      rw [List.mem_toFinset] at hx ⊢
      have hss : ns.take k ⊆ ns.take m := by
        have h1 : (ns.take m).take k = ns.take k := by
          rw [List.take_take]
          congr 1
          omega
        rw [← h1]
        exact List.take_subset k (ns.take m)
      exact hss hx
    have := Finset.card_le_card hsub
    rw [List.card_toFinset, List.card_toFinset] at this
    exact_mod_cast this

/-- Witness for `C1_register_trigger_trace` at `required = 2`,
`ns = [node1, node1, node2]` (scenario 2 of the spec, shrunk). -/
theorem C1_register_trigger_trace_witness :
    (1 : Int) ≤ 2 ∧
    ((∀ x, x ∈ (NarrativeState.runTriggers (.init 2)
        ["node1", "node1", "node2"]).1.triggered_whispers ↔
        x ∈ ["node1", "node1", "node2"])
    ∧ (NarrativeState.runTriggers (.init 2)
        ["node1", "node1", "node2"]).1.triggered_whispers.length
        = ["node1", "node1", "node2"].dedup.length
    ∧ (∀ (k : Nat) (hk : k < (["node1", "node1", "node2"] : List String).length),
        (NarrativeState.runTriggers (.init 2) ["node1", "node1", "node2"]).2.get? k =
          some (decide ((["node1", "node1", "node2"] : List String).get ⟨k, hk⟩ ∉
            (["node1", "node1", "node2"] : List String).take k)))
    ∧ (∀ k : Nat,
        ((NarrativeState.runTriggers (.init 2)
          ((["node1", "node1", "node2"] : List String).take k)).1.unlocked = true ↔
          (2 : Int) ≤ (((["node1", "node1", "node2"] : List String).take k).dedup.length : Int)))
    ∧ (∀ k m : Nat, k ≤ m →
        (NarrativeState.runTriggers (.init 2)
          ((["node1", "node1", "node2"] : List String).take k)).1.unlocked = true →
        (NarrativeState.runTriggers (.init 2)
          ((["node1", "node1", "node2"] : List String).take m)).1.unlocked = true)) :=
  ⟨by norm_num, C1_register_trigger_trace 2 (by norm_num) ["node1", "node1", "node2"]⟩

/-! ## `src/hub/accessibility_store.py`

`_clamp_int`, `_clamp_float`, `_build_node_payload`,
`derive_runtime_payloads`.  The `_ensure_mapping` normalisation (any
non-mapping becomes `{}`) is absorbed by typing `global` and each override
as a `PyDict`; `overrides.get(node_id)` with a missing node likewise gives
`{}` through `getD`. -/

/-- The `accessibility` group of the derived runtime payload.
`repeatCount` is the source's `repeat` field (a reserved word in Lean). -/
structure AccessibilityPayload where
  captions : Bool
  visual_pulse : Bool
  proximity_glow : Bool
  mobility_buffer_ms : Int
  repeatCount : Int
  pace : Rat
  safety_limiter : Bool
  deriving DecidableEq, Repr

/-- A derived per-node runtime payload: `{"audio": {"volume": v}, "accessibility": …}`. -/
structure NodePayload where
  volume : Rat
  accessibility : AccessibilityPayload
  deriving DecidableEq, Repr

/-- `_clamp_int` (`accessibility_store.py` lines 135–140): `int(value)` with
the raise caught into `minimum`, then `max(minimum, min(maximum, number))`. -/
def clamp_int (value : PyValue) (minimum maximum : Int) : Int :=
  let number := (value.toInt?).getD minimum
  max minimum (min maximum number)

/-- `_clamp_float` (lines 143–148). -/
def clamp_float (value : PyValue) (minimum maximum : Rat) : Rat :=
  let number := (value.toFloat?).getD minimum
  max minimum (min maximum number)

/-- `_build_node_payload` (lines 84–126). -/
def build_node_payload (global_settings node_override : PyDict) : NodePayload :=
  let captions := (dget node_override "captions" (dget global_settings "captions" (.bool false))).toBool
  let visual_pulse := (dget node_override "visual_pulse" (.bool false)).toBool
  let proximity_glow := (dget node_override "proximity_glow" (.bool true)).toBool
  let default_buffer := clamp_int (dget global_settings "mobility_buffer_ms" (.int 800)) 0 60000
  let mobility_buffer_ms := clamp_int (dget node_override "mobility_buffer_ms" (.int default_buffer)) 0 60000
  let repeatCount := clamp_int (dget node_override "repeat" (.int 0)) 0 2
  let base_pace : Rat := if (dget global_settings "sensory_friendly" .none).toBool then 0.9 else 1.0
  let pace := clamp_float (dget node_override "pace" (.float base_pace)) 0.85 1.15
  let safety_limiter :=
    (dget node_override "safety_limiter" (dget global_settings "safety_limiter" (.bool true))).toBool
  let volume_raw := dget node_override "volume" .none
  let volume_val : PyValue :=
    if volume_raw = .none then
      let v0 : Rat := 0.7
      let v1 := if (dget global_settings "sensory_friendly" .none).toBool then min v0 0.55 else v0
      let v2 := if (dget global_settings "quiet_hours" .none).toBool then min v1 0.45 else v1
      .float v2
    else volume_raw
  let volume := clamp_float volume_val 0 1
  { volume := volume
    accessibility :=
      { captions := captions
        visual_pulse := visual_pulse
        proximity_glow := proximity_glow
        mobility_buffer_ms := max 0 mobility_buffer_ms
        repeatCount := repeatCount
        pace := pace
        safety_limiter := safety_limiter } }

/-- `derive_runtime_payloads` (lines 69–81), over the node-id set's keys. -/
def derive_runtime_payloads (global_settings : PyDict)
    (overrides : List (String × PyDict)) (nodes : List String) :
    List (String × NodePayload) :=
  nodes.map fun node_id =>
    (node_id,
      build_node_payload global_settings
        (((overrides.find? (fun p => p.1 == node_id)).map (·.2)).getD []))

/-- C3 counterexample: the claim says any out-of-range value snaps to the
range minimum, but `repeat = 9` (above the maximum 2) derives `repeat = 2`,
not the minimum `0`; likewise `mobility_buffer_ms = 100000` derives `60000`,
not `0`. -/
theorem C3_counterexample_above_max_snaps_to_max :
    (build_node_payload [] [("repeat", PyValue.int 9)]).accessibility.repeatCount = 2
    ∧ (2 : Int) ≠ 0
    ∧ (build_node_payload []
        [("mobility_buffer_ms", PyValue.int 100000)]).accessibility.mobility_buffer_ms = 60000
    ∧ (60000 : Int) ≠ 0 := by
  refine ⟨by decide, by decide, by decide, by decide⟩

/-- C3 amended: in `derive_runtime_payloads`' clamped fields, a non-numeric
input snaps to the minimum, a below-minimum input snaps to the minimum, and
an above-maximum input snaps to the **maximum** (nearest-bound clamping);
the four payload fields are exactly these clamps of their inputs. -/
theorem C3_clamping_nearest_bound :
    (∀ (v : PyValue) (lo hi : Int), lo ≤ hi →
      clamp_int v lo hi =
        (v.toInt?).elim lo (fun n => if n < lo then lo else if hi < n then hi else n))
    ∧ (∀ (v : PyValue) (lo hi : Rat), lo ≤ hi →
      clamp_float v lo hi =
        (v.toFloat?).elim lo (fun q => if q < lo then lo else if hi < q then hi else q))
    ∧ (∀ g o : PyDict,
      (build_node_payload g o).accessibility.repeatCount
          = clamp_int (dget o "repeat" (.int 0)) 0 2
      ∧ (build_node_payload g o).accessibility.mobility_buffer_ms
          = max 0 (clamp_int (dget o "mobility_buffer_ms"
              (.int (clamp_int (dget g "mobility_buffer_ms" (.int 800)) 0 60000))) 0 60000)
      ∧ (build_node_payload g o).accessibility.pace
          = clamp_float (dget o "pace"
              (.float (if (dget g "sensory_friendly" .none).toBool then 0.9 else 1.0))) 0.85 1.15) := by
  refine ⟨?_, ?_, ?_⟩
  · intro v lo hi hlohi
    unfold clamp_int
    cases hv : v.toInt? with
    | none => simp [hv, Option.elim]
    | some n =>
      simp only [hv, Option.getD_some, Option.elim]
      split_ifs <;> omega
  · intro v lo hi hlohi
    unfold clamp_float
    cases hv : v.toFloat? with
    | none =>
      simp [hv, Option.elim]
    | some q =>
      simp only [hv, Option.getD_some, Option.elim]
      rcases lt_or_le q lo with h1 | h1
      · rw [if_pos h1]
        have : min hi q ≤ lo := le_trans (min_le_right _ _) (le_of_lt h1)
        exact max_eq_left this
      · rw [if_neg (not_lt.mpr h1)]
        rcases lt_or_le hi q with h2 | h2
        · rw [if_pos h2, min_eq_left (le_of_lt h2)]
          exact max_eq_right hlohi
        · rw [if_neg (not_lt.mpr h2), min_eq_right h2]
          exact max_eq_right h1
  · intro g o
    exact ⟨rfl, rfl, rfl⟩

/-- Witness for `C3_clamping_nearest_bound`: above-max integer clamps to the
maximum, a non-numeric string clamps a float field to the minimum. -/
theorem C3_clamping_nearest_bound_witness :
    clamp_int (.int 100000) 0 60000 = 60000
    ∧ clamp_float (.str "soft") 0.85 1.15 = 0.85 := by
  constructor
  · have h := C3_clamping_nearest_bound.1 (.int 100000) 0 60000 (by norm_num)
    rw [h]
    decide
  · have h := C3_clamping_nearest_bound.2.1 (.str "soft") 0.85 1.15 (by norm_num)
    rw [h]
    rfl

/-- C4 counterexample: with the global `captions`/`safety_limiter` true and
the per-node override false, the derived flags are `false`, not the logical
OR (`true`) the claim requires. -/
theorem C4_counterexample_override_shadows_global :
    (build_node_payload [("captions", PyValue.bool true)]
      [("captions", PyValue.bool false)]).accessibility.captions = false
    ∧ (build_node_payload [("safety_limiter", PyValue.bool true)]
      [("safety_limiter", PyValue.bool false)]).accessibility.safety_limiter = false
    ∧ (false : Bool) ≠ (false || true) := by
  refine ⟨by decide, by decide, by decide⟩

/-- C4 amended: the derived `captions` and `safety_limiter` flags are the
truthiness of the node override when the key is present, else of the global
setting (defaults false resp. true) — override-shadows-global, not OR. -/
theorem C4_flag_override_shadows_global (g o : PyDict) :
    (∀ v, dfind? o "captions" = some v →
      (build_node_payload g o).accessibility.captions = v.toBool)
    ∧ (dfind? o "captions" = Option.none →
      (build_node_payload g o).accessibility.captions
        = (dget g "captions" (.bool false)).toBool)
    ∧ (∀ v, dfind? o "safety_limiter" = some v →
      (build_node_payload g o).accessibility.safety_limiter = v.toBool)
    ∧ (dfind? o "safety_limiter" = Option.none →
      (build_node_payload g o).accessibility.safety_limiter
        = (dget g "safety_limiter" (.bool true)).toBool) := by
  refine ⟨?_, ?_, ?_, ?_⟩ <;>
    first
    | (intro v hv
       simp [build_node_payload, dget, hv])
    | (intro hv
       simp [build_node_payload, dget, hv])

/-- Witness for `C4_flag_override_shadows_global` at the counterexample
input of C4. -/
theorem C4_flag_override_shadows_global_witness :
    (build_node_payload [("captions", PyValue.bool true)]
      [("captions", PyValue.bool false)]).accessibility.captions
      = (PyValue.bool false).toBool :=
  (C4_flag_override_shadows_global [("captions", PyValue.bool true)]
    [("captions", PyValue.bool false)]).1 (PyValue.bool false) rfl

/-! ## `src/hub/logging_utils.py` — `summarize_events`

The summariser is modelled over the parsed CSV rows of the latest file
(the file-system plumbing of `latest_csv` is not needed by any claim) and is
parametric in the timestamp parser standing for
`datetime.fromisoformat` (which raises on malformed input → `Option`). -/

/-- One parsed CSV record (the four-column schema). -/
structure EventRow where
  timestamp : String
  event : String
  node_id : String
  detail : String
  deriving DecidableEq, Repr

/-- `by_node[node] = by_node.get(node, 0) + 1` on an insertion-ordered dict. -/
def bump : List (String × Nat) → String → List (String × Nat)
  | [], k => [(k, 1)]
  | (k', n) :: rest, k =>
    if k' = k then (k', n + 1) :: rest else (k', n) :: bump rest k

/-- The `AnalyticsSummary` dataclass. -/
structure AnalyticsSummary where
  by_node : List (String × Nat)
  heartbeat_by_node : List (String × Nat)
  narrative_unlocks : Nat
  total_triggers : Nat
  completion_rate : Rat
  mean_trigger_interval_seconds : Rat
  recent_events : List EventRow
  deriving DecidableEq, Repr

/-- The accumulators of the row loop in `summarize_events` (lines 132–152). -/
structure SummaryAcc where
  by_node : List (String × Nat)
  heartbeat_by_node : List (String × Nat)
  narrative_unlocks : Nat
  trigger_timestamps : List Rat
  deriving DecidableEq, Repr

/-- One iteration of the row loop of `summarize_events` (lines 132–152). -/
def summarizeStep (parseTs : String → Option Rat) (acc : SummaryAcc)
    (row : EventRow) : SummaryAcc :=
  if row.event = "fragment_triggered" then
    let acc1 := { acc with by_node := bump acc.by_node row.node_id }
    if row.timestamp ≠ "" then
      match parseTs row.timestamp with
      | some t => { acc1 with trigger_timestamps := acc1.trigger_timestamps ++ [t] }
      | Option.none => acc1
    else acc1
  else if row.event = "heartbeat_received" then
    { acc with heartbeat_by_node := bump acc.heartbeat_by_node row.node_id }
  else if row.event = "narrative_unlocked" then
    { acc with narrative_unlocks := acc.narrative_unlocks + 1 }
  else acc

/-- The row loop of `summarize_events`. -/
def summarizeLoop (parseTs : String → Option Rat) (acc : SummaryAcc)
    (rows : List EventRow) : SummaryAcc :=
  rows.foldl (summarizeStep parseTs) acc

/-- `summarize_events` (lines 110–179) over the rows of the latest file. -/
def summarize_events (parseTs : String → Option Rat) (rows : List EventRow) :
    AnalyticsSummary :=
  let acc := summarizeLoop parseTs ⟨[], [], 0, []⟩ rows
  let total_triggers : Nat := (acc.by_node.map (·.2)).sum
  let completion_rate : Rat :=
    if 0 < total_triggers then
      min 1 ((acc.narrative_unlocks : Rat) / (total_triggers : Rat))
    else 0
  let sorted := acc.trigger_timestamps.mergeSort (fun a b => a ≤ b)
  let deltas := (sorted.zip sorted.tail).map (fun p => p.2 - p.1)
  let mean_interval : Rat :=
    if 2 ≤ sorted.length then
      if deltas ≠ [] then deltas.sum / (deltas.length : Rat) else 0
    else 0
  { by_node := acc.by_node
    heartbeat_by_node := acc.heartbeat_by_node
    narrative_unlocks := acc.narrative_unlocks
    total_triggers := total_triggers
    completion_rate := completion_rate
    mean_trigger_interval_seconds := mean_interval
    recent_events := rows.drop (rows.length - 10) }

theorem bump_sum (d : List (String × Nat)) (k : String) :
    ((bump d k).map (·.2)).sum = (d.map (·.2)).sum + 1 := by
  induction d with
  | nil => simp [bump]
  | cons p rest ih =>
    obtain ⟨k', n⟩ := p
    by_cases h : k' = k
    · simp [bump, h]
      omega
    · simp [bump, h, ih]
      omega

theorem summarizeStep_by_node_sum (parseTs : String → Option Rat)
    (acc : SummaryAcc) (row : EventRow) :
    (((summarizeStep parseTs acc row).by_node.map (·.2)).sum : Nat) =
      ((acc.by_node.map (·.2)).sum : Nat) +
        (if row.event = "fragment_triggered" then 1 else 0) := by
  unfold summarizeStep
  by_cases h1 : row.event = "fragment_triggered"
  · by_cases h2 : row.timestamp = ""
    · simp [h1, h2, bump_sum]
    · cases hp : parseTs row.timestamp with
      | none => simp [h1, h2, hp, bump_sum]
      | some t => simp [h1, h2, hp, bump_sum]
  · by_cases h3 : row.event = "heartbeat_received"
    · simp [h1, h3]
    · by_cases h4 : row.event = "narrative_unlocked" <;> simp [h1, h3, h4]

theorem summarizeLoop_by_node_sum (parseTs : String → Option Rat)
    (rows : List EventRow) :
    ∀ acc : SummaryAcc,
      (((summarizeLoop parseTs acc rows).by_node.map (·.2)).sum : Nat) =
        ((acc.by_node.map (·.2)).sum : Nat) +
          (rows.filter (fun r => r.event = "fragment_triggered")).length := by
  induction rows with
  | nil => intro acc; simp [summarizeLoop]
  | cons row rest ih =>
    intro acc
    simp only [summarizeLoop, List.foldl_cons]
    rw [show List.foldl (summarizeStep parseTs) (summarizeStep parseTs acc row) rest
        = summarizeLoop parseTs (summarizeStep parseTs acc row) rest from rfl]
    rw [ih, summarizeStep_by_node_sum]
    by_cases h1 : row.event = "fragment_triggered"
    · simp [h1, List.filter]
      omega
    · simp [h1, List.filter]

/-- C9: `summarize_events` yields
`completion_rate = min 1 (narrative_unlocks / total_triggers)` when triggers
exist, `0` otherwise; `total_triggers` is the sum of `by_node` (and equals
the number of `fragment_triggered` rows), and `completion_rate ∈ [0, 1]`. -/
theorem C9_summary_completion_rate (parseTs : String → Option Rat)
    (rows : List EventRow) :
    (0 < (summarize_events parseTs rows).total_triggers →
      (summarize_events parseTs rows).completion_rate =
        min 1 (((summarize_events parseTs rows).narrative_unlocks : Rat) /
          ((summarize_events parseTs rows).total_triggers : Rat)))
    ∧ ((summarize_events parseTs rows).total_triggers = 0 →
      (summarize_events parseTs rows).completion_rate = 0)
    ∧ (summarize_events parseTs rows).total_triggers =
        (((summarize_events parseTs rows).by_node.map (·.2)).sum : Nat)
    ∧ (summarize_events parseTs rows).total_triggers =
        (rows.filter (fun r => r.event = "fragment_triggered")).length
    ∧ 0 ≤ (summarize_events parseTs rows).completion_rate
    ∧ (summarize_events parseTs rows).completion_rate ≤ 1 := by
  refine ⟨?_, ?_, ?_, ?_, ?_, ?_⟩
  · intro h
    simp only [summarize_events] at h ⊢
    rw [if_pos h]
  · intro h
    simp only [summarize_events] at h ⊢
    rw [if_neg (by omega)]
  · simp [summarize_events]
  · simp only [summarize_events]
    rw [summarizeLoop_by_node_sum]
    simp
  · simp only [summarize_events]
    split_ifs with h
    · exact le_min (by norm_num) (div_nonneg (by positivity) (by positivity))
    · exact le_refl 0
  · simp only [summarize_events]
    split_ifs with h
    · exact min_le_left _ _
    · norm_num

/-- Witness for `C9_summary_completion_rate`: spec scenario 6 (two triggers,
one unlock → rate 1/2). -/
theorem C9_summary_completion_rate_witness :
    (0 < (summarize_events (fun _ => Option.none)
      [⟨"t0", "fragment_triggered", "object1", "{}"⟩,
       ⟨"t1", "fragment_triggered", "object1", "{}"⟩,
       ⟨"t0", "heartbeat_received", "object1", "{}"⟩,
       ⟨"t0", "narrative_unlocked", "mystery", "{}"⟩]).total_triggers)
    ∧ (summarize_events (fun _ => Option.none)
      [⟨"t0", "fragment_triggered", "object1", "{}"⟩,
       ⟨"t1", "fragment_triggered", "object1", "{}"⟩,
       ⟨"t0", "heartbeat_received", "object1", "{}"⟩,
       ⟨"t0", "narrative_unlocked", "mystery", "{}"⟩]).completion_rate =
        min 1 (((summarize_events (fun _ => Option.none)
      [⟨"t0", "fragment_triggered", "object1", "{}"⟩,
       ⟨"t1", "fragment_triggered", "object1", "{}"⟩,
       ⟨"t0", "heartbeat_received", "object1", "{}"⟩,
       ⟨"t0", "narrative_unlocked", "mystery", "{}"⟩]).narrative_unlocks : Rat) /
          ((summarize_events (fun _ => Option.none)
      [⟨"t0", "fragment_triggered", "object1", "{}"⟩,
       ⟨"t1", "fragment_triggered", "object1", "{}"⟩,
       ⟨"t0", "heartbeat_received", "object1", "{}"⟩,
       ⟨"t0", "narrative_unlocked", "mystery", "{}"⟩]).total_triggers : Rat)) :=
  ⟨by decide,
   (C9_summary_completion_rate (fun _ => Option.none)
      [⟨"t0", "fragment_triggered", "object1", "{}"⟩,
       ⟨"t1", "fragment_triggered", "object1", "{}"⟩,
       ⟨"t0", "heartbeat_received", "object1", "{}"⟩,
       ⟨"t0", "narrative_unlocked", "mystery", "{}"⟩]).1 (by decide)⟩

/-! ## `src/hub/logging_utils.py` — `CsvEventLogger` rotation

The logger writes to an abstract directory: an association list from file
name to file content (a list of CSV lines).  Dates are their `isoformat`
strings (the rotation logic of `_ensure_writer` compares dates for equality
only).  A logger instance is its `_current_date`/`_writer` pair, collapsed
to `Option String` because the source sets and clears them together; a
process restart is a fresh instance over the same directory. -/

/-- A line of an event CSV file. -/
inductive CsvLine where
  | header
  | row (timestamp event node_id detail : String)
  deriving DecidableEq, Repr

/-- The logs directory: file name → content. -/
abbrev LogFS := List (String × List CsvLine)

/-- `Path.exists` / read of a file. -/
def fsRead? (fs : LogFS) (name : String) : Option (List CsvLine) :=
  (fs.find? (fun p => p.1 == name)).map (·.2)

/-- `open(..., "a")`: creates the file empty when missing. -/
def fsOpenAppend (fs : LogFS) (name : String) : LogFS :=
  if (fsRead? fs name).isSome then fs else fs ++ [(name, [])]

/-- Append one line to an existing file. -/
def fsAppend (fs : LogFS) (name : String) (line : CsvLine) : LogFS :=
  fs.map (fun p => if p.1 = name then (p.1, p.2 ++ [line]) else p)

/-- `f"{current_date.isoformat()}_events.csv"`. -/
def logFilename (date : String) : String := date ++ "_events.csv"

/-- `CsvEventLogger._ensure_writer` (lines 69–88): rotate unless the open
writer is already on `date`; write the header only when the file did not
already exist. -/
def ensure_writer (fs : LogFS) (lg : Option String) (date : String) :
    LogFS × Option String :=
  if lg = some date then (fs, lg)
  else
    let name := logFilename date
    let file_exists := (fsRead? fs name).isSome
    let fs1 := fsOpenAppend fs name
    let fs2 := if file_exists then fs1 else fsAppend fs1 name .header
    (fs2, some date)

/-- `CsvEventLogger.record_event` (lines 29–49): ensure the writer for the
record's UTC date, then append the row. -/
def record_event (fs : LogFS) (lg : Option String)
    (date ts ev node detail : String) : LogFS × Option String :=
  let r := ensure_writer fs lg date
  (fsAppend r.1 (logFilename date) (.row ts ev node detail), r.2)

/-- A step of a logger history: a record call (carrying the UTC date of its
`datetime.now()` plus the row fields) or a process restart (a fresh
`CsvEventLogger` over the same directory). -/
inductive LogOp where
  | record (date ts ev node detail : String)
  | restart
  deriving DecidableEq, Repr

/-- Run a history of record calls and restarts. -/
def runLog : LogFS × Option String → List LogOp → LogFS × Option String
  | st, [] => st
  | (fs, lg), .record date ts ev node detail :: ops =>
      runLog (record_event fs lg date ts ev node detail) ops
  | (fs, _), .restart :: ops => runLog (fs, Option.none) ops

/-- The rows a history records under a given date, in order. -/
def rowsOf (date : String) (ops : List LogOp) : List CsvLine :=
  ops.filterMap fun op =>
    match op with
    | .record d ts ev node detail =>
        if d = date then some (.row ts ev node detail) else Option.none
    | .restart => Option.none

/-- Whether a history records anything under a given date. -/
def hasDate (date : String) (ops : List LogOp) : Bool :=
  ops.any fun op =>
    match op with
    | .record d _ _ _ _ => d = date
    | .restart => false

/-- An open writer's file exists on disk. -/
def WriterInv (fs : LogFS) (lg : Option String) : Prop :=
  ∀ d, lg = some d → (fsRead? fs (logFilename d)).isSome = true

theorem logFilename_injective {d d' : String} (h : logFilename d = logFilename d') :
    d = d' := by
  unfold logFilename at h
  have hdata : d.data ++ "_events.csv".data = d'.data ++ "_events.csv".data := by
    have h1 := congrArg String.data h
    simpa [String.data_append] using h1
  apply String.ext
  exact List.append_cancel_right hdata

theorem fsRead?_fsAppend_self (fs : LogFS) (name : String) (line : CsvLine) :
    fsRead? (fsAppend fs name line) name = (fsRead? fs name).map (· ++ [line]) := by
  induction fs with
  | nil => rfl
  | cons p rest ih =>
    obtain ⟨n, c⟩ := p
    by_cases h : n = name
    · simp [fsAppend, fsRead?, h]
    · simp only [fsAppend, List.map_cons, if_neg h]
      simp only [fsRead?, List.find?] at ih ⊢
      have hne : (n == name) = false := by simpa [beq_iff_eq] using h
      simp only [hne]
      exact ih

theorem fsRead?_fsAppend_other (fs : LogFS) (name other : String) (line : CsvLine)
    (h : other ≠ name) :
    fsRead? (fsAppend fs name line) other = fsRead? fs other := by
  induction fs with
  | nil => rfl
  | cons p rest ih =>
    obtain ⟨n, c⟩ := p
    by_cases hn : n = name
    · subst hn
      have hne : (n == other) = false := by
        simp [beq_iff_eq]
        exact fun he => h he.symm
      simp [fsAppend, fsRead?, List.find?, hne, if_pos rfl] at ih ⊢
      exact ih
    · simp only [fsAppend, List.map_cons, if_neg hn]
      by_cases ho : n = other
      · simp [fsRead?, List.find?, ho]
      · have hne : (n == other) = false := by simpa [beq_iff_eq] using ho
        simp only [fsRead?, List.find?, hne] at ih ⊢
        exact ih

theorem fsRead?_append_new_self (fs : LogFS) (name : String)
    (c0 : List CsvLine) (h : fsRead? fs name = Option.none) :
    fsRead? (fs ++ [(name, c0)]) name = some c0 := by
  induction fs with
  | nil => simp [fsRead?, List.find?]
  | cons p rest ih =>
    obtain ⟨n, c⟩ := p
    cases hn : (n == name) with
    | true => simp [fsRead?, List.find?, hn] at h
    | false =>
      simp only [fsRead?, List.find?, hn, List.cons_append] at h ⊢
      exact ih h

theorem fsRead?_append_new_other (fs : LogFS) (name other : String)
    (c0 : List CsvLine) (h : other ≠ name) :
    fsRead? (fs ++ [(name, c0)]) other = fsRead? fs other := by
  induction fs with
  | nil =>
    have hne : (name == other) = false := by
      simp only [beq_eq_false_iff_ne, ne_eq]
      exact fun he => h he.symm
    simp [fsRead?, List.find?, hne]
  | cons p rest ih =>
    obtain ⟨n, c⟩ := p
    simp only [fsRead?, List.cons_append, List.find?] at ih ⊢
    cases hn : (n == other) with
    | true => rfl
    | false => exact ih

theorem fsRead?_fsOpenAppend_self (fs : LogFS) (name : String) :
    fsRead? (fsOpenAppend fs name) name =
      if (fsRead? fs name).isSome then fsRead? fs name else some [] := by
  unfold fsOpenAppend
  split_ifs with h
  · rfl
  · rw [Option.not_isSome_iff_eq_none] at h
    exact fsRead?_append_new_self fs name [] h

theorem fsRead?_fsOpenAppend_other (fs : LogFS) (name other : String)
    (h : other ≠ name) :
    fsRead? (fsOpenAppend fs name) other = fsRead? fs other := by
  unfold fsOpenAppend
  split_ifs with hs
  · rfl
  · exact fsRead?_append_new_other fs name other [] h

theorem ensure_writer_read (fs : LogFS) (lg : Option String) (date : String)
    (hinv : WriterInv fs lg) :
    fsRead? (ensure_writer fs lg date).1 (logFilename date) =
      match fsRead? fs (logFilename date) with
      | some c => some c
      | Option.none => some [CsvLine.header] := by
  unfold ensure_writer
  split_ifs with h
  · have := hinv date h
    cases hc : fsRead? fs (logFilename date) with
    | none => rw [hc] at this; simp at this
    | some c => simp [hc]
  · dsimp only
    cases hc : fsRead? fs (logFilename date) with
    | some c =>
      rw [if_pos (show (some c).isSome = true from rfl)]
      rw [fsRead?_fsOpenAppend_self, hc]
      rfl
    | none =>
      rw [if_neg (by decide)]
      rw [fsRead?_fsAppend_self, fsRead?_fsOpenAppend_self, hc]
      rfl

theorem ensure_writer_read_other (fs : LogFS) (lg : Option String)
    (date d : String) (h : d ≠ date) :
    fsRead? (ensure_writer fs lg date).1 (logFilename d) =
      fsRead? fs (logFilename d) := by
  have hname : logFilename d ≠ logFilename date :=
    fun he => h (logFilename_injective he)
  unfold ensure_writer
  split_ifs with hl
  · rfl
  · dsimp only
    cases hex : (fsRead? fs (logFilename date)).isSome with
    | true =>
      rw [if_pos (show (true : Bool) = true from rfl)]
      exact fsRead?_fsOpenAppend_other fs _ _ hname
    | false =>
      rw [if_neg (by decide)]
      rw [fsRead?_fsAppend_other _ _ _ _ hname]
      exact fsRead?_fsOpenAppend_other fs _ _ hname

theorem ensure_writer_inv (fs : LogFS) (lg : Option String) (date : String)
    (hinv : WriterInv fs lg) :
    WriterInv (ensure_writer fs lg date).1 (ensure_writer fs lg date).2 := by
  intro d hd
  have hsnd : (ensure_writer fs lg date).2 = some date := by
    unfold ensure_writer
    split_ifs with h
    · exact h
    · rfl
  rw [hsnd] at hd
  obtain rfl : date = d := by injection hd
  rw [ensure_writer_read fs lg date hinv]
  cases fsRead? fs (logFilename date) <;> rfl

/-- The main characterisation: starting from any directory and logger
satisfying the writer invariant, a history appends exactly its dated rows to
each date's file, creating the file with a single header when absent. -/
theorem runLog_read (ops : List LogOp) :
    ∀ (fs : LogFS) (lg : Option String), WriterInv fs lg → ∀ d : String,
      fsRead? (runLog (fs, lg) ops).1 (logFilename d) =
        match fsRead? fs (logFilename d) with
        | some c => some (c ++ rowsOf d ops)
        | Option.none =>
            if hasDate d ops then some (CsvLine.header :: rowsOf d ops)
            else Option.none := by
  induction ops with
  | nil =>
    intro fs lg hinv d
    simp only [runLog, rowsOf, hasDate, List.filterMap_nil, List.any_nil]
    cases fsRead? fs (logFilename d) <;> simp
  | cons op ops ih =>
    intro fs lg hinv d
    cases op with
    | restart =>
      simp only [runLog]
      have := ih fs Option.none (by intro d h; cases h) d
      simpa [rowsOf, hasDate] using this
    | record date ts ev node detail =>
      simp only [runLog, record_event]
      have hinv' : WriterInv
          (fsAppend (ensure_writer fs lg date).1 (logFilename date)
            (.row ts ev node detail)) (ensure_writer fs lg date).2 := by
        intro d' hd'
        have h2 := ensure_writer_inv fs lg date hinv d' hd'
        by_cases he : logFilename d' = logFilename date
        · rw [he, fsRead?_fsAppend_self]
          rw [he] at h2
          cases hc : fsRead? (ensure_writer fs lg date).1 (logFilename date)
          · rw [hc] at h2; simp at h2
          · rfl
        · rw [fsRead?_fsAppend_other _ _ _ _ he]
          exact h2
      rw [ih _ _ hinv' d]
      by_cases hd : d = date
      · subst hd
        have hrows : rowsOf d (LogOp.record d ts ev node detail :: ops) =
            CsvLine.row ts ev node detail :: rowsOf d ops := by
          simp [rowsOf]
        have hhas : hasDate d (LogOp.record d ts ev node detail :: ops) = true := by
          simp [hasDate]
        rw [fsRead?_fsAppend_self, ensure_writer_read fs lg d hinv]
        cases hc : fsRead? fs (logFilename d) with
        | some c => simp [hc, hrows, hhas]
        | none => simp [hc, hrows, hhas]
      · have hne : logFilename d ≠ logFilename date :=
          fun he => hd (logFilename_injective he)
        have hrows : rowsOf d (LogOp.record date ts ev node detail :: ops) =
            rowsOf d ops := by
          simp [rowsOf, Ne.symm hd]
        have hhas : hasDate d (LogOp.record date ts ev node detail :: ops) =
            hasDate d ops := by
          simp [hasDate, Ne.symm hd]
        rw [fsRead?_fsAppend_other _ _ _ _ hne, ensure_writer_read_other fs lg date d hd]
        cases hc : fsRead? fs (logFilename d) with
        | some c => simp [hc, hrows, hhas]
        | none => simp [hc, hrows, hhas]

/-- C8: over any history of `record_event` calls and process restarts on an
initially empty logs directory, the file of a date `d` exists iff some
record carries `d`; its content is then exactly one header followed by the
records of date `d` in order — so same-date records share one file, the
first record of a new date creates its file, and the header is never
duplicated on reopen.  (Second conjunct: the header count per file is 1.) -/
theorem C8_daily_rotation (ops : List LogOp) :
    (∀ d : String,
      fsRead? (runLog ([], Option.none) ops).1 (logFilename d) =
        if hasDate d ops then some (CsvLine.header :: rowsOf d ops)
        else Option.none)
    ∧ (∀ (d : String) (c : List CsvLine),
      fsRead? (runLog ([], Option.none) ops).1 (logFilename d) = some c →
        c.count CsvLine.header = 1) := by
  have hmain := runLog_read ops [] Option.none (by intro d h; cases h)
  constructor
  · intro d
    have := hmain d
    simpa [fsRead?] using this
  · intro d c hc
    have h0 := hmain d
    rw [hc] at h0
    have h1 : some c =
        if hasDate d ops then some (CsvLine.header :: rowsOf d ops)
        else Option.none := h0
    by_cases hd : hasDate d ops
    · rw [if_pos hd] at h1
      obtain rfl : c = CsvLine.header :: rowsOf d ops := by injection h1
      have hnorow : CsvLine.header ∉ rowsOf d ops := by
        intro hmem
        unfold rowsOf at hmem
        rw [List.mem_filterMap] at hmem
        obtain ⟨op, _, hop⟩ := hmem
        cases op with
        | record d' ts ev node detail =>
          by_cases h : d' = d
          · simp [h] at hop
          · simp [h] at hop
        | restart => simp at hop
      simp [List.count_cons, List.count_eq_zero.mpr hnorow]
    · rw [if_neg hd] at h1
      cases h1

/-- Witness for `C8_daily_rotation`: a restart between two same-day records
does not duplicate the header, and a new day opens a new file. -/
theorem C8_daily_rotation_witness :
    fsRead? (runLog ([], Option.none)
      [.record "2025-01-01" "t1" "fragment_triggered" "object1" "{}",
       .restart,
       .record "2025-01-01" "t2" "heartbeat_received" "object1" "{}",
       .record "2025-01-02" "t3" "fragment_triggered" "object2" "{}"]).1
      (logFilename "2025-01-01") =
      some [CsvLine.header,
        CsvLine.row "t1" "fragment_triggered" "object1" "{}",
        CsvLine.row "t2" "heartbeat_received" "object1" "{}"]
    ∧ (List.count CsvLine.header
        [CsvLine.header,
          CsvLine.row "t1" "fragment_triggered" "object1" "{}",
          CsvLine.row "t2" "heartbeat_received" "object1" "{}"]) = 1 := by
  constructor
  · have h := (C8_daily_rotation
      [.record "2025-01-01" "t1" "fragment_triggered" "object1" "{}",
       .restart,
       .record "2025-01-01" "t2" "heartbeat_received" "object1" "{}",
       .record "2025-01-02" "t3" "fragment_triggered" "object2" "{}"]).1 "2025-01-01"
    rw [h]
    decide
  · have h := (C8_daily_rotation
      [.record "2025-01-01" "t1" "fragment_triggered" "object1" "{}",
       .restart,
       .record "2025-01-01" "t2" "heartbeat_received" "object1" "{}",
       .record "2025-01-02" "t3" "fragment_triggered" "object2" "{}"]).2 "2025-01-01"
    apply h
    have h1 := (C8_daily_rotation
      [.record "2025-01-01" "t1" "fragment_triggered" "object1" "{}",
       .restart,
       .record "2025-01-01" "t2" "heartbeat_received" "object1" "{}",
       .record "2025-01-02" "t3" "fragment_triggered" "object2" "{}"]).1 "2025-01-01"
    rw [h1]
    decide

/-! ## `src/hub/hub_listener.py` — `push_node_config` / `_handle_ack`

The interaction of concurrent `push_node_config` calls with the MQTT
callback `_handle_ack` is modelled as a trace semantics over the shared
`_ack_events` table (all four operations below run under `_ack_lock` in the
source).  A push is identified by a `pid`; its `threading.Event` being set
is membership of the pid in `acked`.  Trace events:

* `start pid node` — lines 120–125: allocate the waiter, replacing any
  previous waiter for the node, then publish successfully;
* `startPublishFail pid node` — lines 120–130: allocate the waiter, the
  publish fails, discard the node's waiter and resolve `false` (no
  event-log record is written on this path);
* `ack node` — `_handle_ack`, lines 243–250: record `config_ack`, pop the
  node's waiter if any and set its event;
* `finish pid node` — the `ack_event.wait(timeout)` call returning, at the
  ack (within the timeout) or at the timeout (lines 133–141): resolve
  `true` recording `config_push_ok` if the event was set, else resolve
  `false`, record `config_push_timeout`, and pop the node's waiter
  (whichever waiter is currently registered for the node). -/

/-- One scheduler event of the push/ack interaction. -/
inductive AckEvent where
  | start (pid : Nat) (node : String)
  | startPublishFail (pid : Nat) (node : String)
  | ack (node : String)
  | finish (pid : Nat) (node : String)
  deriving DecidableEq, Repr

/-- `_ack_events[node] = event` (insert or replace). -/
def setWaiter : List (String × Nat) → String → Nat → List (String × Nat)
  | [], n, p => [(n, p)]
  | (n', p') :: rest, n, p =>
    if n' = n then (n, p) :: rest else (n', p') :: setWaiter rest n p

/-- `_ack_events.get(node)`. -/
def getWaiter (w : List (String × Nat)) (n : String) : Option Nat :=
  (w.find? (fun q => q.1 == n)).map (·.2)

/-- `_ack_events.pop(node, None)` (drops the binding). -/
def popWaiter : List (String × Nat) → String → List (String × Nat)
  | [], _ => []
  | (n', p') :: rest, n => if n' = n then rest else (n', p') :: popWaiter rest n

/-- The shared hub state of the push/ack interaction, plus the outcome of
each completed push and the kinds recorded to the event log. -/
structure HubAckState where
  waiters : List (String × Nat)
  acked : List Nat
  results : List (Nat × Bool)
  events : List (String × String)
  deriving DecidableEq, Repr

/-- One step of the push/ack trace semantics. -/
def ackStep (s : HubAckState) : AckEvent → HubAckState
  | .start pid node => { s with waiters := setWaiter s.waiters node pid }
  | .startPublishFail pid node =>
    let w1 := setWaiter s.waiters node pid
    { s with waiters := popWaiter w1 node, results := s.results ++ [(pid, false)] }
  | .ack node =>
    let s1 := { s with events := s.events ++ [("config_ack", node)] }
    match getWaiter s1.waiters node with
    | some pid =>
      { s1 with waiters := popWaiter s1.waiters node, acked := s1.acked ++ [pid] }
    | Option.none => s1
  | .finish pid node =>
    if pid ∈ s.acked then
      { s with
          results := s.results ++ [(pid, true)]
          events := s.events ++ [("config_push_ok", node)] }
    else
      { s with
          results := s.results ++ [(pid, false)]
          events := s.events ++ [("config_push_timeout", node)]
          waiters := popWaiter s.waiters node }

/-- Run a trace from the idle hub. -/
def ackRun (tr : List AckEvent) : HubAckState :=
  tr.foldl ackStep ⟨[], [], [], []⟩

/-- The outcome of a completed push. -/
def pushResult? (s : HubAckState) (pid : Nat) : Option Bool :=
  (s.results.find? (fun q => q.1 == pid)).map (·.2)

/-- C5 counterexample: when the publish of `config/<node>` fails,
`push_node_config` returns `false` but writes **nothing** to the event log —
in particular no `config_push_timeout`-equivalent record. -/
theorem C5_counterexample_publish_failure_unlogged :
    pushResult? (ackRun [.startPublishFail 1 "node-a"]) 1 = some false
    ∧ (ackRun [.startPublishFail 1 "node-a"]).events = [] := by
  constructor
  · rfl
  · rfl

/-- C5 amended: on a broker publish failure, `push_node_config` discards the
waiter and returns `false` without recording any event-log entry (the
failure is reported only to the Python logger); `config_push_timeout` is
recorded only when an awaited ack does not arrive before the timeout. -/
theorem C5_publish_failure_returns_false_silently (s : HubAckState)
    (pid : Nat) (node : String) :
    (ackStep s (.startPublishFail pid node)).results = s.results ++ [(pid, false)]
    ∧ (ackStep s (.startPublishFail pid node)).events = s.events
    ∧ (ackStep s (.finish pid node)).events =
        s.events ++ [(if pid ∈ s.acked then "config_push_ok" else "config_push_timeout", node)] := by
  refine ⟨rfl, rfl, ?_⟩
  simp only [ackStep]
  by_cases h : pid ∈ s.acked
  · rw [if_pos h, if_pos h]
  · rw [if_neg h, if_neg h]

/-- C2 counterexample: push 1 on `node-a` starts, push 2 on the same node
starts (replacing push 1's waiter), push 1's timeout expires, the ack
arrives, push 2's wait expires.  The ack for `node-a` arrives after push 2
started and before push 2's wait completes — "in time" — yet push 2
resolves `false` (and the ack is treated as unexpected), because push 1's
timeout cleanup popped push 2's waiter. -/
theorem C2_counterexample_timeout_cleanup_steals_waiter :
    pushResult? (ackRun [.start 1 "node-a", .start 2 "node-a",
      .finish 1 "node-a", .ack "node-a", .finish 2 "node-a"]) 2 = some false
    ∧ pushResult? (ackRun [.start 1 "node-a", .start 2 "node-a",
      .finish 1 "node-a", .ack "node-a", .finish 2 "node-a"]) 1 = some false
    ∧ (ackRun [.start 1 "node-a", .start 2 "node-a",
      .finish 1 "node-a", .ack "node-a"]).waiters = [] := by
  refine ⟨rfl, rfl, rfl⟩

/-- C2 amended: a lone `push_node_config` resolves at its wait's end, `true`
iff the matching ack arrived first; a second push for the same node replaces
the first's waiter, the first then resolves `false`, and the second resolves
`true` when its ack arrives **before the first push's timeout expires** — but
if the first push's wait expires while the second is pending, its cleanup
pops the second push's waiter and the second push resolves `false` even
though its ack arrives before its own timeout. -/
theorem C2_push_ack_serialization (p1 p2 : Nat) (n : String) (hne : p1 ≠ p2) :
    (pushResult? (ackRun [.start p1 n, .ack n, .finish p1 n]) p1 = some true)
    ∧ (pushResult? (ackRun [.start p1 n, .finish p1 n]) p1 = some false)
    ∧ (pushResult? (ackRun [.start p1 n, .start p2 n, .ack n,
        .finish p1 n, .finish p2 n]) p1 = some false
      ∧ pushResult? (ackRun [.start p1 n, .start p2 n, .ack n,
        .finish p1 n, .finish p2 n]) p2 = some true)
    ∧ (pushResult? (ackRun [.start p1 n, .start p2 n, .finish p1 n,
        .ack n, .finish p2 n]) p2 = some false) := by
  have hbeq : (n == n) = true := by simp
  have hp12 : (p1 == p2) = false := by simpa using hne
  have hp21 : (p2 == p1) = false := by
    simpa using fun h => hne h.symm
  refine ⟨?_, ?_, ⟨?_, ?_⟩, ?_⟩ <;>
    simp [ackRun, ackStep, setWaiter, getWaiter, popWaiter, pushResult?,
      List.foldl, List.find?, hbeq, hp12, hp21, hne, List.mem_append]

/-- Witness for `C2_push_ack_serialization` at pushes 1, 2 on `node-a`. -/
theorem C2_push_ack_serialization_witness :
    (1 : Nat) ≠ 2
    ∧ pushResult? (ackRun [.start 1 "node-a", .ack "node-a",
        .finish 1 "node-a"]) 1 = some true :=
  ⟨by decide, (C2_push_ack_serialization 1 2 "node-a" (by decide)).1⟩

/-! ## `src/pi_nodes/node_service.py`

Config dataclasses and their `update` methods, the config-message handler,
the whisper trigger state machine of `run_once`, and `_calculate_glow`.
Statements that can raise (`int(...)`/`float(...)` on inbound values with
no enclosing try) are `Except`-valued; the error carries the offending
key.  (On a raise the source leaves the earlier in-place field mutations
behind, but the exception propagates out of the handler, so no caller
observes that state; the model returns only the error.) -/

namespace Node

/-- `ProximitySettings` (lines 47–68). -/
structure ProximitySettings where
  min_mm : Int
  max_mm : Int
  story_threshold_mm : Int
  hysteresis_mm : Int
  deriving DecidableEq, Repr

/-- `int(values[key])` for an optional inbound field: absent keeps `cur`,
present but not int-coercible raises. -/
def updIntField (cur : Int) (values : PyDict) (key : String) : Except String Int :=
  match dfind? values key with
  | Option.none => .ok cur
  | some v =>
    match v.toInt? with
    | some m => .ok m
    | Option.none => .error key

/-- `ProximitySettings.update` (lines 65–68): each of the four keys is
`int(...)`-coerced when present. -/
def ProximitySettings.update (p : ProximitySettings) (values : PyDict) :
    Except String ProximitySettings := do
  let a ← updIntField p.min_mm values "min_mm"
  let b ← updIntField p.max_mm values "max_mm"
  let c ← updIntField p.story_threshold_mm values "story_threshold_mm"
  let d ← updIntField p.hysteresis_mm values "hysteresis_mm"
  .ok { min_mm := a, max_mm := b, story_threshold_mm := c, hysteresis_mm := d }

/-- `str(value)`, total. -/
def PyValue.toStr : PyValue → String
  | .str s => s
  | .int n => toString n
  | .float q => toString q
  | .bool b => if b then "True" else "False"
  | .none => "None"

/-- `AudioSettings` (lines 71–89). -/
structure AudioSettings where
  fragment_file : String
  volume : Rat
  deriving DecidableEq, Repr

/-- `AudioSettings.update` (lines 85–89): `volume` is `float(...)`-coerced. -/
def AudioSettings.update (a : AudioSettings) (values : PyDict) :
    Except String AudioSettings := do
  let frag :=
    match dfind? values "fragment_file" with
    | some v => PyValue.toStr v
    | Option.none => a.fragment_file
  let vol ←
    match dfind? values "volume" with
    | Option.none => Except.ok a.volume
    | some v =>
      match v.toFloat? with
      | some q => Except.ok q
      | Option.none => Except.error "volume"
  .ok { fragment_file := frag, volume := vol }

/-- `AccessibilitySettings` (lines 92–150).  `repeatCount` is the source's
`repeat` field. -/
structure AccessibilitySettings where
  captions : Bool
  visual_pulse : Bool
  proximity_glow : Bool
  mobility_buffer_ms : Int
  repeatCount : Int
  pace : Rat
  safety_limiter : Bool
  deriving DecidableEq, Repr

/-- `AccessibilitySettings._clamp_repeat` (lines 132–138): the raise is
caught into 0, then clamp to `[0, 2]`. -/
def clamp_repeat (value : PyValue) : Int :=
  let r := (value.toInt?).getD 0
  max 0 (min 2 r)

/-- `AccessibilitySettings._clamp_pace` (lines 140–146): the raise is caught
into 1.0, then clamp to `[0.85, 1.15]`. -/
def clamp_pace (value : PyValue) : Rat :=
  let p := (value.toFloat?).getD 1
  max 0.85 (min 1.15 p)

/-- `max(0, int(values["mobility_buffer_ms"]))` when the key is present
(line 124): **no** upper clamp, and `int(...)` may raise. -/
def updMobility (cur : Int) (values : PyDict) : Except String Int :=
  match dfind? values "mobility_buffer_ms" with
  | Option.none => .ok cur
  | some v =>
    match v.toInt? with
    | some m => .ok (max 0 m)
    | Option.none => .error "mobility_buffer_ms"

/-- `AccessibilitySettings.update` (lines 116–130).  Note the asymmetry in
the source: `mobility_buffer_ms` is `max(0, int(value))` with **no** upper
clamp and **no** try/except, while `repeat` and `pace` go through their
catching clamp helpers. -/
def AccessibilitySettings.update (a : AccessibilitySettings) (values : PyDict) :
    Except String AccessibilitySettings :=
  match updMobility a.mobility_buffer_ms values with
  | .error e => .error e
  | .ok mobility =>
    .ok { captions :=
            match dfind? values "captions" with
            | some v => v.toBool
            | Option.none => a.captions
          visual_pulse :=
            match dfind? values "visual_pulse" with
            | some v => v.toBool
            | Option.none => a.visual_pulse
          proximity_glow :=
            match dfind? values "proximity_glow" with
            | some v => v.toBool
            | Option.none => a.proximity_glow
          mobility_buffer_ms := mobility
          repeatCount :=
            match dfind? values "repeat" with
            | some v => clamp_repeat v
            | Option.none => a.repeatCount
          pace :=
            match dfind? values "pace" with
            | some v => clamp_pace v
            | Option.none => a.pace
          safety_limiter :=
            match dfind? values "safety_limiter" with
            | some v => v.toBool
            | Option.none => a.safety_limiter }

/-- The configuration blocks touched by the config-message handler. -/
structure NodeConfig where
  node_id : String
  role : String
  proximity : ProximitySettings
  audio : AudioSettings
  accessibility : AccessibilitySettings
  deriving DecidableEq, Repr

/-- A top-level value of the parsed `config/<node>` JSON object: each
recognised group is applied only when it is a mapping. -/
inductive GroupVal where
  | dict (d : PyDict)
  | scalar (v : PyValue)
  deriving DecidableEq, Repr

/-- Group lookup in the parsed payload. -/
def gfind? (data : List (String × GroupVal)) (k : String) : Option GroupVal :=
  (data.find? (fun p => p.1 == k)).map (·.2)

/-- Lines 332–335: `if "audio" in data and isinstance(data["audio"], dict)`. -/
def apply_audio_group (data : List (String × GroupVal)) (cfg : NodeConfig) :
    Except String (NodeConfig × List String) :=
  match gfind? data "audio" with
  | some (.dict d) =>
    match cfg.audio.update d with
    | .ok au => .ok ({ cfg with audio := au }, ["audio"])
    | .error e => .error e
  | _ => .ok (cfg, [])

/-- Lines 336–338. -/
def apply_proximity_group (data : List (String × GroupVal))
    (r : NodeConfig × List String) : Except String (NodeConfig × List String) :=
  match gfind? data "proximity" with
  | some (.dict d) =>
    match r.1.proximity.update d with
    | .ok pr => .ok ({ r.1 with proximity := pr }, r.2 ++ ["proximity"])
    | .error e => .error e
  | _ => .ok r

/-- Lines 339–342. -/
def apply_accessibility_group (data : List (String × GroupVal))
    (r : NodeConfig × List String) : Except String (NodeConfig × List String) :=
  match gfind? data "accessibility" with
  | some (.dict d) =>
    match r.1.accessibility.update d with
    | .ok ac => .ok ({ r.1 with accessibility := ac }, r.2 ++ ["accessibility"])
    | .error e => .error e
  | _ => .ok r

/-- `NodeService._handle_config_message` (lines 321–351) after a successful
JSON-object parse: overwrite-merge each recognised mapping group in source
order and collect the applied-group names for the ack (non-mapping groups
are skipped). -/
def handle_config_message (cfg : NodeConfig) (data : List (String × GroupVal)) :
    Except String (NodeConfig × List String) :=
  match apply_audio_group data cfg with
  | .error e => .error e
  | .ok r1 =>
    match apply_proximity_group data r1 with
    | .error e => .error e
    | .ok r2 => apply_accessibility_group data r2

/-- The dataclass field defaults (lines 51–54, 75–76, 96–102, 170–172). -/
def defaultProximity : ProximitySettings :=
  { min_mm := 100, max_mm := 1200, story_threshold_mm := 700, hysteresis_mm := 50 }

def defaultAudio : AudioSettings := { fragment_file := "", volume := 0.7 }

def defaultAccessibility : AccessibilitySettings :=
  { captions := false, visual_pulse := false, proximity_glow := true,
    mobility_buffer_ms := 800, repeatCount := 0, pace := 1, safety_limiter := true }

def defaultConfig : NodeConfig :=
  { node_id := "node-unknown", role := "whisper", proximity := defaultProximity,
    audio := defaultAudio, accessibility := defaultAccessibility }

/-- The in-memory accessibility bounds the claim asserts, minus the parts
the code does not enforce. -/
def AccBounds (a : AccessibilitySettings) : Prop :=
  0 ≤ a.mobility_buffer_ms ∧ 0 ≤ a.repeatCount ∧ a.repeatCount ≤ 2
    ∧ (0.85 : Rat) ≤ a.pace ∧ a.pace ≤ (1.15 : Rat)

/-- C6 counterexample: the config payload
`{"accessibility": {"mobility_buffer_ms": 100000}}` is applied without
raising, leaving `mobility_buffer_ms = 100000 ∉ [0, 60000]`; and the payload
`{"accessibility": {"mobility_buffer_ms": null}}` makes the handler raise
(`int(None)` is uncaught), contradicting both halves of the claim. -/
theorem C6_counterexample_no_upper_clamp_and_raise :
    ((handle_config_message defaultConfig
        [("accessibility", GroupVal.dict [("mobility_buffer_ms", PyValue.int 100000)])]).toOption.map
      (fun r => r.1.accessibility.mobility_buffer_ms)) = some 100000
    ∧ ¬((100000 : Int) ≤ 60000)
    ∧ (handle_config_message defaultConfig
        [("accessibility", GroupVal.dict [("mobility_buffer_ms", PyValue.none)])]).toOption.isNone
        = true := by
  refine ⟨by decide, by decide, by decide⟩

theorem clamp_repeat_bounds (v : PyValue) :
    0 ≤ clamp_repeat v ∧ clamp_repeat v ≤ 2 := by
  unfold clamp_repeat
  constructor
  · exact le_max_left _ _
  · exact max_le (by norm_num) (min_le_left _ _)

theorem clamp_pace_bounds (v : PyValue) :
    (0.85 : Rat) ≤ clamp_pace v ∧ clamp_pace v ≤ (1.15 : Rat) := by
  unfold clamp_pace
  constructor
  · exact le_max_left _ _
  · exact max_le (by norm_num) (min_le_left _ _)

theorem accessibility_update_bounds (a : AccessibilitySettings) (values : PyDict)
    (a' : AccessibilitySettings) (hok : a.update values = .ok a')
    (h : AccBounds a) : AccBounds a' := by
  unfold AccessibilitySettings.update at hok
  cases hm : updMobility a.mobility_buffer_ms values with
  | error e => rw [hm] at hok; cases hok
  | ok m =>
    rw [hm] at hok
    have hm0 : 0 ≤ m := by
      unfold updMobility at hm
      cases hd : dfind? values "mobility_buffer_ms" with
      | none =>
        simp only [hd] at hm
        obtain rfl : a.mobility_buffer_ms = m := by injection hm
        exact h.1
      | some v =>
        simp only [hd] at hm
        cases ht : v.toInt? with
        | none =>
          simp only [ht] at hm
          cases hm
        | some k =>
          simp only [ht] at hm
          obtain rfl : max 0 k = m := by injection hm
          exact le_max_left _ _
    obtain rfl : _ = a' := by injection hok
    refine ⟨hm0, ?_, ?_, ?_, ?_⟩ <;> dsimp only
    · cases dfind? values "repeat" with
      | none => exact h.2.1
      | some v => exact (clamp_repeat_bounds v).1
    · cases dfind? values "repeat" with
      | none => exact h.2.2.1
      | some v => exact (clamp_repeat_bounds v).2
    · cases dfind? values "pace" with
      | none => exact h.2.2.2.1
      | some v => exact (clamp_pace_bounds v).1
    · cases dfind? values "pace" with
      | none => exact h.2.2.2.2
      | some v => exact (clamp_pace_bounds v).2

/-- C6 amended: processing any parsed `config/<node>` object that does not
raise preserves `mobility_buffer_ms ≥ 0`, `repeat ∈ [0, 2]` and
`pace ∈ [0.85, 1.15]`; there is **no** 60000 upper clamp on
`mobility_buffer_ms`, and a non-int-coercible `mobility_buffer_ms` (or
non-coercible numeric audio/proximity field) propagates as a raise out of
the handler. -/
theorem apply_audio_group_accessibility (data : List (String × GroupVal))
    (cfg : NodeConfig) (r : NodeConfig × List String)
    (hok : apply_audio_group data cfg = .ok r) :
    r.1.accessibility = cfg.accessibility := by
  unfold apply_audio_group at hok
  cases hg : gfind? data "audio" with
  | none =>
    simp only [hg] at hok
    obtain rfl : (cfg, ([] : List String)) = r := by injection hok
    rfl
  | some gv =>
    cases gv with
    | scalar v =>
      simp only [hg] at hok
      obtain rfl : (cfg, ([] : List String)) = r := by injection hok
      rfl
    | dict d =>
      simp only [hg] at hok
      cases hu : cfg.audio.update d with
      | error e =>
        simp only [hu] at hok
        cases hok
      | ok au =>
        simp only [hu] at hok
        obtain rfl : ({ cfg with audio := au }, ["audio"]) = r := by injection hok
        rfl

theorem apply_proximity_group_accessibility (data : List (String × GroupVal))
    (r r' : NodeConfig × List String)
    (hok : apply_proximity_group data r = .ok r') :
    r'.1.accessibility = r.1.accessibility := by
  unfold apply_proximity_group at hok
  cases hg : gfind? data "proximity" with
  | none =>
    simp only [hg] at hok
    obtain rfl : r = r' := by injection hok
    rfl
  | some gv =>
    cases gv with
    | scalar v =>
      simp only [hg] at hok
      obtain rfl : r = r' := by injection hok
      rfl
    | dict d =>
      simp only [hg] at hok
      cases hu : r.1.proximity.update d with
      | error e =>
        simp only [hu] at hok
        cases hok
      | ok pr =>
        simp only [hu] at hok
        obtain rfl : ({ r.1 with proximity := pr }, r.2 ++ ["proximity"]) = r' := by
          injection hok
        rfl

theorem apply_accessibility_group_bounds (data : List (String × GroupVal))
    (r r' : NodeConfig × List String)
    (hok : apply_accessibility_group data r = .ok r')
    (h : AccBounds r.1.accessibility) : AccBounds r'.1.accessibility := by
  unfold apply_accessibility_group at hok
  cases hg : gfind? data "accessibility" with
  | none =>
    simp only [hg] at hok
    obtain rfl : r = r' := by injection hok
    exact h
  | some gv =>
    cases gv with
    | scalar v =>
      simp only [hg] at hok
      obtain rfl : r = r' := by injection hok
      exact h
    | dict d =>
      simp only [hg] at hok
      cases hu : r.1.accessibility.update d with
      | error e =>
        simp only [hu] at hok
        cases hok
      | ok ac =>
        simp only [hu] at hok
        obtain rfl : ({ r.1 with accessibility := ac }, r.2 ++ ["accessibility"]) = r' := by
          injection hok
        exact accessibility_update_bounds r.1.accessibility d ac hu h

/-- C6 amended: processing any parsed `config/<node>` object that does not
raise preserves `mobility_buffer_ms ≥ 0`, `repeat ∈ [0, 2]` and
`pace ∈ [0.85, 1.15]`; there is **no** 60000 upper clamp on
`mobility_buffer_ms`, and a non-int-coercible `mobility_buffer_ms` (or
non-coercible numeric audio/proximity field) propagates as a raise out of
the handler. -/
theorem C6_config_handler_bounds (cfg : NodeConfig)
    (data : List (String × GroupVal)) (cfg' : NodeConfig) (applied : List String)
    (hok : handle_config_message cfg data = .ok (cfg', applied))
    (h : AccBounds cfg.accessibility) : AccBounds cfg'.accessibility := by
  unfold handle_config_message at hok
  cases h1 : apply_audio_group data cfg with
  | error e =>
    simp only [h1] at hok
    cases hok
  | ok r1 =>
    simp only [h1] at hok
    cases h2 : apply_proximity_group data r1 with
    | error e =>
      simp only [h2] at hok
      cases hok
    | ok r2 =>
      simp only [h2] at hok
      have hb2 : AccBounds r2.1.accessibility := by
        rw [apply_proximity_group_accessibility data r1 r2 h2,
          apply_audio_group_accessibility data cfg r1 h1]
        exact h
      have := apply_accessibility_group_bounds data r2 (cfg', applied) hok hb2
      exact this

/-- Witness for `C6_config_handler_bounds`: applying
`{"accessibility": {"repeat": 9}}` to the default configuration succeeds
and the clamped bounds hold. -/
theorem C6_config_handler_bounds_witness :
    handle_config_message defaultConfig
      [("accessibility", GroupVal.dict [("repeat", PyValue.int 9)])] =
      .ok ({ defaultConfig with accessibility :=
        { defaultAccessibility with repeatCount := 2 } }, ["accessibility"])
    ∧ AccBounds defaultConfig.accessibility
    ∧ AccBounds ({ defaultConfig with accessibility :=
        { defaultAccessibility with repeatCount := 2 } } : NodeConfig).accessibility := by
  have hb : AccBounds defaultConfig.accessibility := by
    refine ⟨?_, ?_, ?_, ?_, ?_⟩ <;> norm_num [defaultConfig, defaultAccessibility]
  refine ⟨rfl, hb, ?_⟩
  exact C6_config_handler_bounds defaultConfig
    [("accessibility", GroupVal.dict [("repeat", PyValue.int 9)])] _ _ rfl hb

/-! ### The whisper trigger state machine of `run_once`

`run_once` (lines 394–410) for a whisper node with a mounted sensor is
`_process_distance; _process_pending_story; _update_story_state` (the
heartbeat touches none of the trigger state).  A tick's inputs — wall time,
sensor reading, and the config blocks as they stand at that tick (config
messages may rewrite them between ticks) — are a `TickInput`; the fragment
existence check of `_start_story` (line 480) is the `fragment_exists`
flag.  `run_once` returns the times at which it published `trigger/<node>`
(line 513).  LED/haptic/audio effects are not modelled (no claim mentions
them); the `mystery` flag of `_start_story` only selects an LED pattern. -/

/-- `RETRIGGER_COOLDOWN_SECONDS` (line 43). -/
def RETRIGGER_COOLDOWN_SECONDS : Rat := 5

/-- `STORY_RESET_SECONDS` (line 44). -/
def STORY_RESET_SECONDS : Rat := 8

/-- The trigger-relevant mutable state of `NodeService` (lines 216–221). -/
structure WhisperState where
  cooldown_until : Rat
  pending_story_at : Option Rat
  story_active : Bool
  story_reset_time : Rat
  last_trigger_ts : Rat
  deriving DecidableEq, Repr

/-- The `NodeService.__init__` values (lines 216–221). -/
def initState : WhisperState :=
  { cooldown_until := 0, pending_story_at := Option.none, story_active := false,
    story_reset_time := 0, last_trigger_ts := 0 }

/-- The inputs of one loop tick. -/
structure TickInput where
  now : Rat
  distance : Option Int
  proximity : ProximitySettings
  accessibility : AccessibilitySettings
  fragment_exists : Bool
  deriving DecidableEq, Repr

/-- `NodeService._start_story` (lines 476–513), trigger state and
publication only.  Returns the new state and the publication times. -/
def start_story (s : WhisperState) (inp : TickInput) (now : Rat)
    (force : Bool) : WhisperState × List Rat :=
  if ¬force ∧ (now < s.cooldown_until ∨ s.story_active) then (s, [])
  else if ¬inp.fragment_exists then (s, [])
  else
    ({ s with
        story_active := true
        last_trigger_ts := now
        cooldown_until := now + RETRIGGER_COOLDOWN_SECONDS
        story_reset_time := now + STORY_RESET_SECONDS }, [now])

/-- `NodeService._queue_story` (lines 458–466). -/
def queue_story (s : WhisperState) (inp : TickInput) : WhisperState × List Rat :=
  if s.story_active ∨ inp.now < s.cooldown_until then (s, [])
  else
    let buffer_seconds : Rat := (inp.accessibility.mobility_buffer_ms : Rat) / 1000
    if buffer_seconds ≤ 0 then start_story s inp inp.now false
    else if s.pending_story_at = Option.none then
      ({ s with pending_story_at := some (inp.now + buffer_seconds) }, [])
    else (s, [])

/-- `NodeService._process_distance` (lines 428–450) for a whisper node
(LED-only actions dropped). -/
def process_distance (s : WhisperState) (inp : TickInput) :
    WhisperState × List Rat :=
  match inp.distance with
  | Option.none => ({ s with pending_story_at := Option.none }, [])
  | some d =>
    let start_threshold :=
      inp.proximity.story_threshold_mm - inp.proximity.hysteresis_mm
    if d ≤ start_threshold then queue_story s inp
    else ({ s with pending_story_at := Option.none }, [])

/-- `NodeService._process_pending_story` (lines 471–474). -/
def process_pending_story (s : WhisperState) (inp : TickInput) :
    WhisperState × List Rat :=
  match s.pending_story_at with
  | some t =>
    if inp.now ≥ t then
      let r := start_story s inp inp.now false
      ({ r.1 with pending_story_at := Option.none }, r.2)
    else (s, [])
  | Option.none => (s, [])

/-- `NodeService._update_story_state` (lines 515–519). -/
def update_story_state (s : WhisperState) (now : Rat) : WhisperState :=
  if s.story_active ∧ now ≥ s.story_reset_time then
    { s with story_active := false }
  else s

/-- One `run_once` tick of a whisper node (trigger state only). -/
def run_once (s : WhisperState) (inp : TickInput) : WhisperState × List Rat :=
  let r1 := process_distance s inp
  let r2 := process_pending_story r1.1 inp
  (update_story_state r2.1 inp.now, r1.2 ++ r2.2)

/-- Run a sequence of ticks, concatenating the publication times. -/
def runTicks (s : WhisperState) : List TickInput → WhisperState × List Rat
  | [] => (s, [])
  | t :: ts =>
    let r := run_once s t
    let rest := runTicks r.1 ts
    (rest.1, r.2 ++ rest.2)

/-- A tick outcome with no publication: the cooldown and activity state are
untouched. -/
def NoPub (s : WhisperState) (r : WhisperState × List Rat) : Prop :=
  r.2 = [] ∧ r.1.cooldown_until = s.cooldown_until
    ∧ r.1.story_active = s.story_active

/-- A tick outcome that published once at `now`: the pre-state was out of
cooldown and story-idle, and the new cooldown starts at `now`. -/
def PubAt (s : WhisperState) (r : WhisperState × List Rat) (now : Rat) : Prop :=
  r.2 = [now] ∧ s.cooldown_until ≤ now ∧ s.story_active = false
    ∧ r.1.cooldown_until = now + RETRIGGER_COOLDOWN_SECONDS
    ∧ r.1.story_active = true

theorem start_story_spec (s : WhisperState) (inp : TickInput) (now : Rat) :
    (start_story s inp now false = (s, []))
    ∨ PubAt s (start_story s inp now false) now := by
  unfold start_story
  by_cases hc : now < s.cooldown_until ∨ s.story_active = true
  · rw [if_pos ⟨by simp, by simpa using hc⟩]
    exact Or.inl rfl
  · rw [if_neg (fun hand => hc (by simpa using hand.2))]
    by_cases hf : inp.fragment_exists = true
    · rw [if_neg (not_not.mpr hf)]
      right
      rw [not_or] at hc
      exact ⟨rfl, not_lt.mp hc.1, by simpa using hc.2, rfl, rfl⟩
    · rw [if_pos hf]
      exact Or.inl rfl

theorem start_story_noop (s : WhisperState) (inp : TickInput) (now : Rat)
    (h : now < s.cooldown_until ∨ s.story_active = true) :
    start_story s inp now false = (s, []) := by
  unfold start_story
  rw [if_pos ⟨by simp, by simpa using h⟩]

theorem queue_story_spec (s : WhisperState) (inp : TickInput) :
    NoPub s (queue_story s inp) ∨ PubAt s (queue_story s inp) inp.now := by
  unfold queue_story
  dsimp only
  split_ifs with h1 h2 h3
  · exact Or.inl ⟨rfl, rfl, rfl⟩
  · rcases start_story_spec s inp inp.now with h | h
    · rw [h]
      exact Or.inl ⟨rfl, rfl, rfl⟩
    · exact Or.inr h
  · exact Or.inl ⟨rfl, rfl, rfl⟩
  · exact Or.inl ⟨rfl, rfl, rfl⟩

theorem process_distance_spec (s : WhisperState) (inp : TickInput) :
    NoPub s (process_distance s inp)
    ∨ PubAt s (process_distance s inp) inp.now := by
  unfold process_distance
  cases inp.distance with
  | none => exact Or.inl ⟨rfl, rfl, rfl⟩
  | some d =>
    dsimp only
    split_ifs with h
    · exact queue_story_spec s inp
    · exact Or.inl ⟨rfl, rfl, rfl⟩

theorem process_pending_story_spec (s : WhisperState) (inp : TickInput) :
    NoPub s (process_pending_story s inp)
    ∨ PubAt s (process_pending_story s inp) inp.now := by
  unfold process_pending_story
  cases hp : s.pending_story_at with
  | none => exact Or.inl ⟨rfl, rfl, rfl⟩
  | some t =>
    dsimp only
    split_ifs with h
    · rcases start_story_spec s inp inp.now with hs | hs
      · rw [hs]
        exact Or.inl ⟨rfl, rfl, rfl⟩
      · right
        exact ⟨hs.1, hs.2.1, hs.2.2.1, hs.2.2.2.1, hs.2.2.2.2⟩
    · exact Or.inl ⟨rfl, rfl, rfl⟩

theorem update_story_state_cooldown (s : WhisperState) (now : Rat) :
    (update_story_state s now).cooldown_until = s.cooldown_until := by
  unfold update_story_state
  split_ifs <;> rfl

/-- One tick either publishes nothing and keeps the cooldown, or publishes
exactly once at `now`, from an idle, out-of-cooldown pre-state, setting the
cooldown to `now + RETRIGGER_COOLDOWN_SECONDS`. -/
theorem run_once_spec (s : WhisperState) (inp : TickInput) :
    ((run_once s inp).2 = []
      ∧ (run_once s inp).1.cooldown_until = s.cooldown_until)
    ∨ ((run_once s inp).2 = [inp.now] ∧ s.cooldown_until ≤ inp.now
      ∧ s.story_active = false
      ∧ (run_once s inp).1.cooldown_until = inp.now + RETRIGGER_COOLDOWN_SECONDS) := by
  unfold run_once
  dsimp only
  rw [update_story_state_cooldown]
  rcases process_distance_spec s inp with h1 | h1
  · rcases process_pending_story_spec (process_distance s inp).1 inp with h2 | h2
    · left
      rw [h1.1, h2.1, h2.2.1, h1.2.1]
      exact ⟨rfl, rfl⟩
    · right
      rw [h1.1, h2.1]
      exact ⟨rfl, h1.2.1 ▸ h2.2.1, h1.2.2 ▸ h2.2.2.1, h2.2.2.2.1⟩
  · rcases process_pending_story_spec (process_distance s inp).1 inp with h2 | h2
    · right
      rw [h1.1, h2.1, h2.2.1]
      exact ⟨rfl, h1.2.1, h1.2.2.1, h1.2.2.2.1⟩
    · exfalso
      have ha : (process_distance s inp).1.story_active = true := h1.2.2.2.2
      have hb : (process_distance s inp).1.story_active = false := h2.2.2.1
      rw [ha] at hb
      cases hb

/-- A tick entered with an active story never publishes. -/
theorem run_once_story_active_no_pub (s : WhisperState) (inp : TickInput)
    (h : s.story_active = true) : (run_once s inp).2 = [] := by
  rcases run_once_spec s inp with hs | hs
  · exact hs.1
  · rw [h] at hs
    cases hs.2.2.1

theorem runTicks_pubs_spec (ticks : List TickInput) :
    ∀ s : WhisperState,
      List.Chain' (fun a b => a + RETRIGGER_COOLDOWN_SECONDS ≤ b)
        (runTicks s ticks).2
      ∧ (∀ t ∈ (runTicks s ticks).2.head?, s.cooldown_until ≤ t) := by
  induction ticks with
  | nil => intro s; exact ⟨List.chain'_nil, by simp [runTicks]⟩
  | cons tk ticks ih =>
    intro s
    simp only [runTicks]
    rcases run_once_spec s tk with h | h
    · rw [h.1]
      obtain ⟨hch, hhd⟩ := ih (run_once s tk).1
      refine ⟨hch, ?_⟩
      rw [List.nil_append]
      intro t ht
      have := hhd t ht
      rw [h.2] at this
      exact this
    · rw [h.1]
      obtain ⟨hch, hhd⟩ := ih (run_once s tk).1
      refine ⟨?_, ?_⟩
      · rw [List.singleton_append]
        rw [List.chain'_cons']
        refine ⟨?_, hch⟩
        intro b hb
        have := hhd b hb
        rw [h.2.2.2] at this
        exact this
      · rw [List.singleton_append]
        intro t ht
        simp only [List.head?_cons, Option.mem_def] at ht
        have htt : tk.now = t := by injection ht
        rw [← htt]
        exact h.2.1

/-- C7: across any whisper `run_once` trace from the initial state, with
arbitrary per-tick sensor distances and config blocks, consecutive
`trigger/<node>` publications are at least `RETRIGGER_COOLDOWN` apart (so no
publication happens within the cooldown of the previous one, including
publications that start via the pending mobility-buffer path), and a tick
entered with `story_active` publishes nothing. -/
theorem C7_whisper_no_retrigger (ticks : List TickInput) :
    List.Chain' (fun a b => a + RETRIGGER_COOLDOWN_SECONDS ≤ b)
      (runTicks initState ticks).2
    ∧ (∀ (pre : List TickInput) (inp : TickInput) (post : List TickInput),
        ticks = pre ++ inp :: post →
        (runTicks initState pre).1.story_active = true →
        (run_once (runTicks initState pre).1 inp).2 = []) := by
  refine ⟨(runTicks_pubs_spec ticks initState).1, ?_⟩
  intro pre inp post _ hact
  exact run_once_story_active_no_pub _ inp hact

/-- Witness for `C7_whisper_no_retrigger`: a close reading at `t = 0`
(zero mobility buffer, defaults otherwise) starts the story, and the next
tick at `t = 1`, entered with the story active, publishes nothing. -/
theorem C7_whisper_no_retrigger_witness :
    (runTicks initState
      [{ now := 0, distance := some 640, proximity := defaultProximity,
          accessibility := { defaultAccessibility with mobility_buffer_ms := 0 },
          fragment_exists := true }]).1.story_active = true
    ∧ (run_once (runTicks initState
        [{ now := 0, distance := some 640, proximity := defaultProximity,
            accessibility := { defaultAccessibility with mobility_buffer_ms := 0 },
            fragment_exists := true }]).1
        { now := 1, distance := some 640, proximity := defaultProximity,
          accessibility := { defaultAccessibility with mobility_buffer_ms := 0 },
          fragment_exists := true }).2 = [] := by
  have hact : (runTicks initState
      [{ now := 0, distance := some 640, proximity := defaultProximity,
          accessibility := { defaultAccessibility with mobility_buffer_ms := 0 },
          fragment_exists := true }]).1.story_active = true := by
    norm_num [runTicks, run_once, process_distance, queue_story, start_story,
      process_pending_story, update_story_state, initState, defaultProximity,
      defaultAccessibility, RETRIGGER_COOLDOWN_SECONDS, STORY_RESET_SECONDS]
  refine ⟨hact, ?_⟩
  exact (C7_whisper_no_retrigger
    [{ now := 0, distance := some 640, proximity := defaultProximity,
        accessibility := { defaultAccessibility with mobility_buffer_ms := 0 },
        fragment_exists := true },
      { now := 1, distance := some 640, proximity := defaultProximity,
        accessibility := { defaultAccessibility with mobility_buffer_ms := 0 },
        fragment_exists := true }]).2
    [{ now := 0, distance := some 640, proximity := defaultProximity,
        accessibility := { defaultAccessibility with mobility_buffer_ms := 0 },
        fragment_exists := true }]
    { now := 1, distance := some 640, proximity := defaultProximity,
      accessibility := { defaultAccessibility with mobility_buffer_ms := 0 },
      fragment_exists := true }
    [] rfl hact

/-! ### `NodeService._calculate_glow` -/

/-- `_calculate_glow` (lines 452–456): `span = max(1, max_mm - min_mm)`
guards the division; the result is clamped into `[0, 1]` twice. -/
def calculate_glow (p : ProximitySettings) (distance : Int) : Rat :=
  let span : Int := max 1 (p.max_mm - p.min_mm)
  let value : Rat := 1 - max 0 (min 1 (((distance - p.min_mm : Int) : Rat) / (span : Rat)))
  max 0 (min 1 value)

/-- C10: for every distance and every proximity configuration (including
degenerate ones with `max_mm ≤ min_mm`), the glow divisor is at least 1 —
never zero — and the result lies in `[0, 1]`. -/
theorem C10_glow_total_bounded (p : ProximitySettings) (d : Int) :
    1 ≤ max 1 (p.max_mm - p.min_mm)
    ∧ ((max 1 (p.max_mm - p.min_mm) : Int) : Rat) ≠ 0
    ∧ 0 ≤ calculate_glow p d ∧ calculate_glow p d ≤ 1 := by
  refine ⟨le_max_left _ _, ?_, ?_, ?_⟩
  · have h : (0 : Int) < max 1 (p.max_mm - p.min_mm) :=
      lt_of_lt_of_le one_pos (le_max_left _ _)
    exact_mod_cast (ne_of_gt h)
  · exact le_max_left _ _
  · exact max_le (by norm_num) (min_le_left _ _)

end Node

end EchoTrace
